import Mathlib

/-!
Verification of the smatch units checker (`smatch_units.c`) and the
param-to-mtag-data checker (the second source file) against their
natural-language specification.  Every definition below is a shallow
embedding of the corresponding C function; host/framework services
(macro-name resolution, implied values, the path environment, the
persisted type_info store) appear as explicit data.
-/

/-- Embeds the closed set of unit states declared with `STATE(...)` at the top
of smatch_units.c: bit, byte, array_size, longs, page, msec, jiffy. -/
inductive UnitKind where
  | bit
  | byte
  | array_size
  | longs
  | page
  | msec
  | jiffy
deriving DecidableEq

/-- Embeds a `struct smatch_state *` value for one checker: the shared
sentinels `&undefined` and `&merged`, or a checker-specific concrete state.
The C compares the global singletons by pointer; here the closed tagged
union is compared structurally (spec section 9 prescribes exactly this
representation). -/
inductive SState (α : Type) where
  | undefined
  | merged
  | concrete (a : α)
deriving DecidableEq

/-- Embeds `struct tag_assign_info` from the mtag-assign checker:
{mtag_t tag; int offset; int param}. -/
structure tag_assign_info where
  tag : Int
  offset : Int
  param : Int
deriving DecidableEq

/-- Embeds `merge_units` (smatch_units.c): if s1 is `&undefined` return s2,
if s2 is `&undefined` return s1, else return `&merged`. -/
def merge_units (s1 s2 : SState UnitKind) : SState UnitKind :=
  if s1 = SState.undefined then s2
  else if s2 = SState.undefined then s1
  else SState.merged

/-- Embeds `merge_tag_info` (second source file): identical shape to
`merge_units` but over tag-assign states. -/
def merge_tag_info (s1 s2 : SState tag_assign_info) : SState tag_assign_info :=
  if s1 = SState.undefined then s2
  else if s2 = SState.undefined then s1
  else SState.merged

/-- Modelled from the spec: the host's merge engine (`merge_states`, part of
the smatch framework, not among the source files under verification) first
returns the state unchanged when the two incoming states are identical and
only otherwise defers to the checker's registered merge hook ("if either is
Undefined, return the other; if equal, return it; else return Merged").
This is the full merge operation for the units checker. -/
def merge_state_units (s1 s2 : SState UnitKind) : SState UnitKind :=
  if s1 = s2 then s1 else merge_units s1 s2

/-- Modelled from the spec: the same framework wrapper applied to the
mtag-assign checker's merge hook `merge_tag_info`. -/
def merge_state_tag (s1 s2 : SState tag_assign_info) : SState tag_assign_info :=
  if s1 = s2 then s1 else merge_tag_info s1 s2

/-- Statement kind of `__cur_stmt` as far as `pre_merge_hook` inspects it:
a return statement or anything else. -/
inductive StmtType where
  | sreturn
  | sother
deriving DecidableEq

/-- Embeds `pre_merge_hook` (smatch_units.c) as a predicate returning whether
the "ambiguous units merge" message is emitted: it returns early when the two
states are identical, when either is `&undefined` or `&merged`, and the
message is only printed when `__cur_stmt` is absent or is not a
`STMT_RETURN`. -/
def pre_merge_hook (cur_stmt : Option StmtType) (cur other : SState UnitKind) : Bool :=
  if cur = other then false
  else if cur = SState.undefined ∨ cur = SState.merged ∨
          other = SState.undefined ∨ other = SState.merged then false
  else if cur_stmt = some StmtType.sreturn then false
  else true

/-- Result of `get_type(expr)` as far as the units checker inspects it:
`SYM_PTR`, `SYM_ARRAY`, or any other symbol type. -/
inductive EType where
  | ptr
  | array
  | other_type
deriving DecidableEq

/-- Binary operator of an `EXPR_BINOP` node as switched on by
`binop_helper`/`match_binop_check`/`match_binop_set`: '+', '-', '*', '/',
`SPECIAL_LEFTSHIFT`, `SPECIAL_RIGHTSHIFT`, and anything else. -/
inductive BOp where
  | add
  | sub
  | mul
  | div
  | shl
  | shr
  | other_op
deriving DecidableEq

/-- Host-supplied answers about one expression node, one field per outbound
query the units checker issues: `get_macro_name(expr->pos)` (mname),
`pos_ident(expr->pos)` (ident), `get_implied_value(expr, &val)` (implied),
`get_type(expr)` (styp) and `get_member_name(expr)` (member). -/
structure AInfo where
  mname : Option String
  ident : Option String
  implied : Option Int
  styp : Option EType
  member : Option String
deriving DecidableEq

/-- Embeds the expression shapes `get_units` dispatches on after
`strip_expr` (expressions are modelled already stripped): `EXPR_SIZEOF`,
`EXPR_PTRSIZEOF`, `EXPR_BINOP`, `EXPR_CALL` (fn is the callee symbol name
when the callee is a symbol), and every other node kind collapsed into
`atom`. -/
inductive Expr where
  | esizeof (a : AInfo)
  | eptrsizeof (a : AInfo)
  | binop (op : BOp) (l r : Expr) (a : AInfo)
  | call (fn : Option String) (a : AInfo)
  | atom (a : AInfo)
deriving DecidableEq

/-- Host data attached to an expression node. -/
def Expr.ainfo : Expr → AInfo
  | .esizeof a => a
  | .eptrsizeof a => a
  | .binop _ _ _ a => a
  | .call _ a => a
  | .atom a => a

/-- True exactly for `EXPR_SIZEOF` and `EXPR_PTRSIZEOF` nodes. -/
def Expr.sizeof_shaped : Expr → Bool
  | .esizeof _ => true
  | .eptrsizeof _ => true
  | _ => false

/-- Embeds `sym_name_is(name, expr->fn)`: the callee is a symbol with the
given name. -/
def sym_name_is (name : String) (fn : Option String) : Bool :=
  fn = some name

/-- Embeds `is_PAGE_SHIFT` (smatch_units.c): `get_macro_name(expr->pos)`
equals "PAGE_SHIFT". -/
def is_PAGE_SHIFT (e : Expr) : Bool :=
  e.ainfo.mname = some "PAGE_SHIFT"

/-- Embeds `is_PAGE_SIZE` (smatch_units.c). -/
def is_PAGE_SIZE (e : Expr) : Bool :=
  e.ainfo.mname = some "PAGE_SIZE"

/-- Embeds `is_BITS_PER_LONG` (smatch_units.c). -/
def is_BITS_PER_LONG (e : Expr) : Bool :=
  e.ainfo.mname = some "BITS_PER_LONG"

/-- Embeds `str_to_units` (smatch_units.c); the C maps the literal
"unknown" and every unrecognized string to NULL. -/
def str_to_units (str : String) : Option UnitKind :=
  if str = "bit" then some UnitKind.bit
  else if str = "byte" then some UnitKind.byte
  else if str = "page" then some UnitKind.page
  else if str = "msec" then some UnitKind.msec
  else if str = "jiffy" then some UnitKind.jiffy
  else if str = "longs" then some UnitKind.longs
  else if str = "array_size" then some UnitKind.array_size
  else none

/-- Embeds the `pos_ident` comparison chain at the top of `get_units`:
the identifier idioms sizeof/PAGE_SIZE -> byte, jiffies -> jiffy,
BITS_PER_LONG and BITS_PER_LONG_LONG -> bit, ARRAY_SIZE -> array_size. -/
def ident_units : Option String → Option UnitKind
  | none => none
  | some id =>
    if id = "sizeof" then some UnitKind.byte
    else if id = "PAGE_SIZE" then some UnitKind.byte
    else if id = "jiffies" then some UnitKind.jiffy
    else if id = "BITS_PER_LONG" then some UnitKind.bit
    else if id = "BITS_PER_LONG_LONG" then some UnitKind.bit
    else if id = "ARRAY_SIZE" then some UnitKind.array_size
    else none

/-- Embeds `get_units_call` (smatch_units.c): calls to the two fixed
conversion functions return jiffy/msec directly. -/
def get_units_call (e : Expr) : Option UnitKind :=
  match e with
  | .call fn _ =>
    if sym_name_is "msecs_to_jiffies" fn then some UnitKind.jiffy
    else if sym_name_is "jiffies_to_msecs" fn then some UnitKind.msec
    else none
  | _ => none

/-- Embeds the row-accumulation callback `db_units` (smatch_units.c): the
first row's value is kept; any later row carrying a different value degrades
the accumulator to the literal string "unknown", permanently. -/
def db_units (acc : Option String) (value : String) : Option String :=
  match acc with
  | none => some value
  | some u => if u = value then some u else some "unknown"

/-- Values stored in the type_info rows for one member key, in insertion
order (the cache query and the on-disk query feed the same accumulator). -/
def row_values (rows : List (String × String)) (member : String) : List String :=
  (rows.filter fun r => r.1 == member).map fun r => r.2

/-- The fact-store lookup for a member key: fold `db_units` over every row
inserted for that key. -/
def lookup_units (rows : List (String × String)) (member : String) : Option String :=
  (row_values rows member).foldl db_units none

/-- Embeds `sql_insert_cache(type_info, ...)`: the store is append-only,
one more row for the member key. -/
def insert_type_info (rows : List (String × String)) (member value : String) :
    List (String × String) :=
  rows ++ [(member, value)]

/-- Path environment plus persisted type_info rows: the two stateful
sources `get_units` consults (`get_state_expr` and the sql queries). -/
structure UnitsCtx where
  env : Expr → Option (SState UnitKind)
  rows : List (String × String)

/-- Embeds `get_units_from_type` (smatch_units.c): resolve the member name,
special-case `(struct vm_area_struct)->vm_pgoff` to page, otherwise fold the
persisted rows with `db_units` and map the resulting string through
`str_to_units`. -/
def get_units_from_type (ctx : UnitsCtx) (e : Expr) : Option UnitKind :=
  match e.ainfo.member with
  | none => none
  | some member =>
    if member = "(struct vm_area_struct)->vm_pgoff" then some UnitKind.page
    else
      match lookup_units ctx.rows member with
      | none => none
      | some units => str_to_units units

mutual

/-- Embeds `get_units` (smatch_units.c).  The C checks, in order: the
sizeof-shaped node kinds; the `pos_ident` idioms; then dispatches on the node
kind (binop via `binop_helper`, call via `get_units_call`); and only for the
remaining kinds consults the path environment (`get_state_expr`, with
`&merged`/`&undefined` mapped to NULL without any store fallback) and finally
the persisted type_info store.  The single up-front ident check is
distributed here into the non-sizeof branches, preserving that order of
outcomes. -/
def get_units (ctx : UnitsCtx) (e : Expr) : Option UnitKind :=
  match e with
  | .esizeof _ => some UnitKind.byte
  | .eptrsizeof _ => some UnitKind.byte
  | .binop op l r a =>
    match ident_units a.ident with
    | some u => some u
    | none => binop_helper ctx l op r
  | .call fn a =>
    match ident_units a.ident with
    | some u => some u
    | none => get_units_call (Expr.call fn a)
  | .atom a =>
    match ident_units a.ident with
    | some u => some u
    | none =>
      match ctx.env (Expr.atom a) with
      | some (SState.concrete u) => some u
      | some SState.merged => none
      | some SState.undefined => none
      | none => get_units_from_type ctx (Expr.atom a)
termination_by sizeOf e
decreasing_by
  all_goals
    first
    | omega
    | (rename_i a; cases a; simp; omega)

/-- Embeds `binop_helper` (smatch_units.c): '-' falls through to '+'
(either array_size operand kills the result, else the left unit wins, else
the right); '*' gives byte on PAGE_SIZE or implied 4096; '/' gives longs on
BITS_PER_LONG, page on PAGE_SIZE or implied 4096; shifts by PAGE_SHIFT give
byte (left) / page (right); everything else gives NULL. -/
def binop_helper (ctx : UnitsCtx) (l : Expr) (op : BOp) (r : Expr) : Option UnitKind :=
  match op with
  | .sub | .add =>
    let left_state := get_units ctx l
    let right_state := get_units ctx r
    if left_state = some UnitKind.array_size ∨ right_state = some UnitKind.array_size then
      none
    else
      match left_state with
      | some u => some u
      | none => right_state
  | .mul =>
    if is_PAGE_SIZE r then some UnitKind.byte
    else
      match r.ainfo.implied with
      | none => none
      | some val => if val = 4096 then some UnitKind.byte else none
  | .div =>
    if is_BITS_PER_LONG r then some UnitKind.longs
    else if is_PAGE_SIZE r then some UnitKind.page
    else
      match r.ainfo.implied with
      | none => none
      | some val => if val = 4096 then some UnitKind.page else none
  | .shl =>
    if is_PAGE_SHIFT r then some UnitKind.byte else none
  | .shr =>
    if is_PAGE_SHIFT r then some UnitKind.page else none
  | .other_op => none
termination_by 1 + sizeOf l + sizeOf r
decreasing_by
  all_goals omega

end

/-- The two warnings the binop-check hook can emit. -/
inductive Diag where
  | missing_conversion
  | multiplying_bits_bytes
deriving DecidableEq

/-- Embeds `check_add_sub` (smatch_units.c) as the list of warnings it
emits: nothing when the left operand's static type is a pointer or array;
otherwise the single "missing conversion" warning exactly when both operands
have known units and those units differ. -/
def check_add_sub (ctx : UnitsCtx) (e : Expr) : List Diag :=
  match e with
  | .binop _ l r _ =>
    match l.ainfo.styp with
    | some EType.ptr => []
    | some EType.array => []
    | _ =>
      match get_units ctx l, get_units ctx r with
      | some left, some right =>
        if left = right then [] else [Diag.missing_conversion]
      | _, _ => []
  | _ => []

/-- Embeds `check_mult` (smatch_units.c): the "multiplying bits * bytes"
warning fires when one operand's unit is bit and one is byte. -/
def check_mult (ctx : UnitsCtx) (e : Expr) : List Diag :=
  match e with
  | .binop _ l r _ =>
    if (get_units ctx l = some UnitKind.bit ∨ get_units ctx r = some UnitKind.bit) ∧
       (get_units ctx l = some UnitKind.byte ∨ get_units ctx r = some UnitKind.byte) then
      [Diag.multiplying_bits_bytes]
    else []
  | _ => []

/-- Embeds `match_binop_check` (smatch_units.c): dispatch on the operator,
'+'/'-' to `check_add_sub`, '*' to `check_mult`, everything else ignored. -/
def match_binop_check (ctx : UnitsCtx) (e : Expr) : List Diag :=
  match e with
  | .binop op _ _ _ =>
    match op with
    | BOp.add => check_add_sub ctx e
    | BOp.sub => check_add_sub ctx e
    | BOp.mul => check_mult ctx e
    | _ => []
  | _ => []

/-- Embeds `match_binop_set` (smatch_units.c) as the list of
`set_units(target, state)` calls it performs: a left shift by PAGE_SHIFT
marks the shifted operand page, a right shift by PAGE_SHIFT marks it byte;
for '+'/'-' with a non-pointer, non-array left operand, a one-sided known
unit is copied onto the other operand. -/
def match_binop_set (ctx : UnitsCtx) (e : Expr) : List (Expr × UnitKind) :=
  match e with
  | .binop op l r _ =>
    if op = BOp.shl ∧ is_PAGE_SHIFT r = true then [(l, UnitKind.page)]
    else if op = BOp.shr ∧ is_PAGE_SHIFT r = true then [(l, UnitKind.byte)]
    else if op ≠ BOp.add ∧ op ≠ BOp.sub then []
    else
      match l.ainfo.styp with
      | some EType.ptr => []
      | some EType.array => []
      | _ =>
        match get_units ctx l, get_units ctx r with
        | some left, none => [(r, left)]
        | none, some right => [(l, right)]
        | _, _ => []
  | _ => []

/-- Name string of a unit state, as produced by the `STATE(...)` macro. -/
def unit_name : UnitKind → String
  | UnitKind.bit => "bit"
  | UnitKind.byte => "byte"
  | UnitKind.array_size => "array_size"
  | UnitKind.longs => "longs"
  | UnitKind.page => "page"
  | UnitKind.msec => "msec"
  | UnitKind.jiffy => "jiffy"

/-- Embeds `state->name` for a units state. -/
def sname : SState UnitKind → String
  | SState.undefined => "undefined"
  | SState.merged => "merged"
  | SState.concrete u => unit_name u

/-- Embeds the parameter loop of `process_states` (smatch_units.c).  Each
list entry is one formal parameter: its exit state (`get_state`, NULL as
none) and its entry state (`get_state_stree(get_start_states(), ...)`).
A `return_implies` row (paramIndex, unitName) is emitted when the exit state
exists, is neither `&merged` nor `&undefined`, and differs from the entry
state.  The C's `param` counter starts at -1 and is pre-incremented, so the
head of the list is parameter 0. -/
def process_states_go : Nat → List (Option (SState UnitKind) × Option (SState UnitKind)) →
    List (Nat × String)
  | _, [] => []
  | param, (st, start_state) :: rest =>
    match st with
    | none => process_states_go (param + 1) rest
    | some s =>
      if s = SState.merged ∨ s = SState.undefined then
        process_states_go (param + 1) rest
      else if some s = start_state then
        process_states_go (param + 1) rest
      else
        (param, sname s) :: process_states_go (param + 1) rest

/-- Embeds `process_states` (smatch_units.c): the loop above started at
parameter index 0. -/
def process_states (params : List (Option (SState UnitKind) × Option (SState UnitKind))) :
    List (Nat × String) :=
  process_states_go 0 params

/-- Host-supplied answers about one actual argument of a call, as queried by
the mtag-assign checker: whether the node is an `EXPR_SYMBOL`, the result of
`get_param_num_from_sym` (negative when the symbol is not a formal parameter
of the caller), the result of `get_mtag` (none on failure), and the opaque
`get_absolute_rl` payload. -/
structure TExpr where
  is_symbol : Bool
  param_num : Int
  tag : Option Int
  rl : Nat
deriving DecidableEq

/-- Embeds `propogate_assignment` (second source file): when the actual
argument at the fact's parameter index is a bare symbol that resolves to a
formal parameter of the caller, record a local tag-assign state
(`set_state_expr` with data name `$->[offset]`) and report success; in every
other case report failure and do nothing. -/
def propogate_assignment (args : List TExpr) (param : Nat) (tag : Int) (offset : Int) :
    Option (TExpr × String × tag_assign_info) :=
  match args[param]? with
  | none => none
  | some arg =>
    if arg.is_symbol = false then none
    else if arg.param_num < 0 then none
    else some (arg, "$->[" ++ toString offset ++ "]", ⟨tag, offset, arg.param_num⟩)

/-- Persisted side effects of `assign_to_alias`: the `insert_mtag_data`
rows (alias, offset, rl payload) and the `sql_insert_mtag_map` rows
(tag, offset, alias). -/
structure AliasEffects where
  mtag_data : List (Int × Int × Nat)
  mtag_map : List (Int × Int × Int)
deriving DecidableEq

/-- Embeds `assign_to_alias` (second source file).  `create_alias` is the
outcome of the host call `create_mtag_alias(tag, expr, &alias)` (none when
it fails, in which case nothing is persisted).  On success the mtag data is
persisted against the fresh alias at the fact's offset, and when `get_mtag`
resolves the caller's own tag for the argument an mtag_map row
(arg_tag, -offset, alias) is additionally persisted, with the offset
negated. -/
def assign_to_alias (create_alias : Option Int) (args : List TExpr) (param : Nat)
    (tag : Int) (offset : Int) : AliasEffects :=
  match args[param]? with
  | none => ⟨[], []⟩
  | some arg =>
    match create_alias with
    | none => ⟨[], []⟩
    | some alias_tag =>
      ⟨[(alias_tag, offset, arg.rl)],
       match arg.tag with
       | some arg_tag => [(arg_tag, -offset, alias_tag)]
       | none => []⟩

/-- Embeds the dispatch at the end of `call_does_mtag_assign` (second source
file), after the fact's value has been parsed into tag and offset: try
`propogate_assignment`; only when it reports failure fall through to
`assign_to_alias`. -/
def call_does_mtag_assign (create_alias : Option Int) (args : List TExpr) (param : Nat)
    (tag : Int) (offset : Int) : Option (TExpr × String × tag_assign_info) × AliasEffects :=
  match propogate_assignment args param tag offset with
  | some local_state => (some local_state, ⟨[], []⟩)
  | none => (none, assign_to_alias create_alias args param tag offset)

/-- An expression node about which the host reports nothing. -/
def ainfo_none : AInfo := ⟨none, none, none, none, none⟩

/-- An empty analysis context: no path-environment states, no persisted
type_info rows. -/
def ctx_empty : UnitsCtx := ⟨fun _ => none, []⟩
/-- Claim C1: the merge operation of the state lattice satisfies
merge(Undefined, X) = X, merge(X, X) = X, and merge(X, Y) = Merged for
distinct Concrete X and Y; merging a Concrete state with itself returns that
same state, not Merged.  Proved for both checkers' lattices. -/
theorem merge_lattice_laws (X : SState UnitKind) (Y : SState tag_assign_info)
    (u v : UnitKind) (t s : tag_assign_info) (huv : u ≠ v) (hts : t ≠ s) :
    merge_state_units SState.undefined X = X ∧
    merge_state_units X SState.undefined = X ∧
    merge_state_units X X = X ∧
    merge_state_units (SState.concrete u) (SState.concrete v) = SState.merged ∧
    merge_state_units (SState.concrete u) (SState.concrete u) = SState.concrete u ∧
    merge_state_tag SState.undefined Y = Y ∧
    merge_state_tag Y SState.undefined = Y ∧
    merge_state_tag Y Y = Y ∧
    merge_state_tag (SState.concrete t) (SState.concrete s) = SState.merged ∧
    merge_state_tag (SState.concrete t) (SState.concrete t) = SState.concrete t := by
  refine ⟨?_, ?_, ?_, ?_, ?_, ?_, ?_, ?_, ?_, ?_⟩
  · cases X <;> simp [merge_state_units, merge_units]
  · cases X <;> simp [merge_state_units, merge_units]
  · simp [merge_state_units]
  · simp [merge_state_units, merge_units, huv]
  · simp [merge_state_units]
  · cases Y <;> simp [merge_state_tag, merge_tag_info]
  · cases Y <;> simp [merge_state_tag, merge_tag_info]
  · simp [merge_state_tag]
  · simp [merge_state_tag, merge_tag_info, hts]
  · simp [merge_state_tag]

/-- Closed instance of `merge_lattice_laws`: merging the Concrete states
byte and page yields Merged. -/
theorem merge_lattice_laws_witness :
    merge_state_units (SState.concrete UnitKind.byte) (SState.concrete UnitKind.page) =
      SState.merged :=
  (merge_lattice_laws (SState.concrete UnitKind.byte)
    (SState.concrete (⟨1, 0, 0⟩ : tag_assign_info)) UnitKind.byte UnitKind.page
    ⟨1, 0, 0⟩ ⟨2, 0, 0⟩ (by decide) (by decide)).2.2.2.1

/-- Claim C7: the pre-merge diagnostic fires exactly when the two incoming
states are distinct Concrete states and the confluence point is not a
function-return join; any merge involving Undefined or Merged, and any merge
at a return statement, is suppressed. -/
theorem pre_merge_warning_iff (stmt : Option StmtType) (cur other : SState UnitKind) :
    pre_merge_hook stmt cur other = true ↔
      ((∃ u v : UnitKind, cur = SState.concrete u ∧ other = SState.concrete v ∧ u ≠ v) ∧
        stmt ≠ some StmtType.sreturn) := by
  cases cur <;> cases other <;> simp [pre_merge_hook]

/-- Closed instance of `pre_merge_warning_iff`: distinct concrete states at a
non-return statement do fire the diagnostic. -/
theorem pre_merge_warning_iff_witness :
    pre_merge_hook none (SState.concrete UnitKind.byte) (SState.concrete UnitKind.page) = true :=
  (pre_merge_warning_iff none (SState.concrete UnitKind.byte)
      (SState.concrete UnitKind.page)).mpr
    ⟨⟨UnitKind.byte, UnitKind.page, rfl, rfl, by decide⟩, by decide⟩

/-- Claim C5: for a '+' or '-' binop (with no identifier idiom at its
position), `get_units` is NULL whenever either operand's unit is array_size,
and otherwise propagates the left operand's unit when known, else the
right's. -/
theorem add_sub_units_result (ctx : UnitsCtx) (op : BOp) (l r : Expr) (a : AInfo)
    (hop : op = BOp.add ∨ op = BOp.sub) (hid : ident_units a.ident = none) :
    get_units ctx (Expr.binop op l r a) =
      if get_units ctx l = some UnitKind.array_size ∨
         get_units ctx r = some UnitKind.array_size then none
      else
        match get_units ctx l with
        | some u => some u
        | none => get_units ctx r := by
  rcases hop with h | h <;> subst h <;> simp [get_units, binop_helper, hid]

/-- Closed instance of `add_sub_units_result`: sizeof + (no unit) yields
byte. -/
theorem add_sub_units_result_witness :
    get_units ctx_empty
      (Expr.binop BOp.add (Expr.atom ⟨none, some "sizeof", none, none, none⟩)
        (Expr.atom ainfo_none) ainfo_none) = some UnitKind.byte := by
  have h := add_sub_units_result ctx_empty BOp.add
    (Expr.atom ⟨none, some "sizeof", none, none, none⟩) (Expr.atom ainfo_none) ainfo_none
    (Or.inl rfl) rfl
  rw [h]
  simp [get_units, ident_units, ctx_empty, ainfo_none, get_units_from_type, Expr.ainfo]

/-- Counterexample to claim C4 as stated: a '/' whose right operand is the
bits-per-word idiom *and* has implied value 4096 yields longs (WordCount),
not page, because `binop_helper` checks BITS_PER_LONG before the
PAGE_SIZE/4096 test; the claim as stated assigns this input Page. -/
theorem div_bits_per_long_overrides_4096 :
    is_BITS_PER_LONG (Expr.atom ⟨some "BITS_PER_LONG", none, some 4096, none, none⟩) = true ∧
    (Expr.atom ⟨some "BITS_PER_LONG", none, some 4096, none, none⟩).ainfo.implied = some 4096 ∧
    get_units ctx_empty
      (Expr.binop BOp.div (Expr.atom ainfo_none)
        (Expr.atom ⟨some "BITS_PER_LONG", none, some 4096, none, none⟩) ainfo_none) =
      some UnitKind.longs ∧
    get_units ctx_empty
      (Expr.binop BOp.div (Expr.atom ainfo_none)
        (Expr.atom ⟨some "BITS_PER_LONG", none, some 4096, none, none⟩) ainfo_none) ≠
      some UnitKind.page := by
  have h : get_units ctx_empty
      (Expr.binop BOp.div (Expr.atom ainfo_none)
        (Expr.atom ⟨some "BITS_PER_LONG", none, some 4096, none, none⟩) ainfo_none) =
      some UnitKind.longs := by
    simp [get_units, binop_helper, ident_units, is_BITS_PER_LONG, Expr.ainfo, ainfo_none]
  refine ⟨by decide, rfl, h, ?_⟩
  rw [h]
  decide

/-- Claim C4 as amended: for a '*', '/', '<<' or '>>' binop (with no
identifier idiom at its position), `get_units` returns byte for '*' with a
PAGE_SIZE right operand or implied value 4096; for '/', longs (WordCount)
when the right operand is the bits-per-word idiom — this check comes first
and wins even when the implied value is 4096 — and otherwise page for a
PAGE_SIZE right operand or implied value 4096; byte for '<<' by PAGE_SHIFT;
page for '>>' by PAGE_SHIFT; and NULL for every other operand shape. -/
theorem binop_units_cases (ctx : UnitsCtx) (op : BOp) (l r : Expr) (a : AInfo)
    (hid : ident_units a.ident = none) :
    (op = BOp.mul →
      get_units ctx (Expr.binop op l r a) =
        if is_PAGE_SIZE r = true ∨ r.ainfo.implied = some 4096 then some UnitKind.byte
        else none) ∧
    (op = BOp.div →
      get_units ctx (Expr.binop op l r a) =
        if is_BITS_PER_LONG r = true then some UnitKind.longs
        else if is_PAGE_SIZE r = true ∨ r.ainfo.implied = some 4096 then some UnitKind.page
        else none) ∧
    (op = BOp.shl →
      get_units ctx (Expr.binop op l r a) =
        if is_PAGE_SHIFT r = true then some UnitKind.byte else none) ∧
    (op = BOp.shr →
      get_units ctx (Expr.binop op l r a) =
        if is_PAGE_SHIFT r = true then some UnitKind.page else none) := by
  refine ⟨?_, ?_, ?_, ?_⟩ <;> rintro rfl
  · by_cases hps : is_PAGE_SIZE r
    · simp [get_units, binop_helper, hid, hps]
    · cases himp : r.ainfo.implied with
      | none => simp [get_units, binop_helper, hid, hps, himp]
      | some v =>
        by_cases hv : v = 4096 <;> simp [get_units, binop_helper, hid, hps, himp, hv]
  · by_cases hbl : is_BITS_PER_LONG r
    · simp [get_units, binop_helper, hid, hbl]
    · by_cases hps : is_PAGE_SIZE r
      · simp [get_units, binop_helper, hid, hbl, hps]
      · cases himp : r.ainfo.implied with
        | none => simp [get_units, binop_helper, hid, hbl, hps, himp]
        | some v =>
          by_cases hv : v = 4096 <;> simp [get_units, binop_helper, hid, hbl, hps, himp, hv]
  · by_cases hsh : is_PAGE_SHIFT r <;> simp [get_units, binop_helper, hid, hsh]
  · by_cases hsh : is_PAGE_SHIFT r <;> simp [get_units, binop_helper, hid, hsh]

/-- Closed instance of `binop_units_cases`: multiplying by PAGE_SIZE yields
byte. -/
theorem binop_units_cases_witness :
    get_units ctx_empty
      (Expr.binop BOp.mul (Expr.atom ainfo_none)
        (Expr.atom ⟨some "PAGE_SIZE", none, none, none, none⟩) ainfo_none) =
      some UnitKind.byte := by
  have h := (binop_units_cases ctx_empty BOp.mul (Expr.atom ainfo_none)
    (Expr.atom ⟨some "PAGE_SIZE", none, none, none, none⟩) ainfo_none rfl).1 rfl
  rw [h]
  decide

/-- Claim C6: `get_units` of any sizeof-shaped expression is byte no matter
what the host reports about it and no matter the analysis context; and on
every non-sizeof node the `pos_ident` idioms resolve — independently of the
path environment and of the persisted store — to byte (sizeof, PAGE_SIZE),
jiffy (jiffies), bit (BITS_PER_LONG, BITS_PER_LONG_LONG) and array_size
(ARRAY_SIZE). -/
theorem sizeof_and_ident_idiom_units (ctx : UnitsCtx) (a : AInfo) (e : Expr)
    (hns : e.sizeof_shaped = false) :
    get_units ctx (Expr.esizeof a) = some UnitKind.byte ∧
    get_units ctx (Expr.eptrsizeof a) = some UnitKind.byte ∧
    ((e.ainfo.ident = some "sizeof" ∨ e.ainfo.ident = some "PAGE_SIZE") →
      get_units ctx e = some UnitKind.byte) ∧
    (e.ainfo.ident = some "jiffies" → get_units ctx e = some UnitKind.jiffy) ∧
    ((e.ainfo.ident = some "BITS_PER_LONG" ∨ e.ainfo.ident = some "BITS_PER_LONG_LONG") →
      get_units ctx e = some UnitKind.bit) ∧
    (e.ainfo.ident = some "ARRAY_SIZE" → get_units ctx e = some UnitKind.array_size) := by
  refine ⟨by simp [get_units], by simp [get_units], ?_, ?_, ?_, ?_⟩
  · rintro (h | h) <;> cases e <;>
      simp_all [get_units, Expr.ainfo, Expr.sizeof_shaped, ident_units]
  · intro h
    cases e <;> simp_all [get_units, Expr.ainfo, Expr.sizeof_shaped, ident_units]
  · rintro (h | h) <;> cases e <;>
      simp_all [get_units, Expr.ainfo, Expr.sizeof_shaped, ident_units]
  · intro h
    cases e <;> simp_all [get_units, Expr.ainfo, Expr.sizeof_shaped, ident_units]

/-- Closed instance of `sizeof_and_ident_idiom_units`: the ARRAY_SIZE idiom
resolves to array_size in the empty context. -/
theorem sizeof_and_ident_idiom_units_witness :
    get_units ctx_empty (Expr.atom ⟨none, some "ARRAY_SIZE", none, none, none⟩) =
      some UnitKind.array_size :=
  (sizeof_and_ident_idiom_units ctx_empty ainfo_none
    (Expr.atom ⟨none, some "ARRAY_SIZE", none, none, none⟩) rfl).2.2.2.2.2 rfl

/-- Counterexample to claim C2 as stated: `check_add_sub` has no ArraySize
exemption, so adding a byte-unit operand (sizeof) to an array_size-unit
operand (ARRAY_SIZE) emits the "missing conversion" warning, where the claim
says no such diagnostic is emitted. -/
theorem byte_plus_array_size_warns :
    get_units ctx_empty (Expr.atom ⟨none, some "sizeof", none, none, none⟩) =
      some UnitKind.byte ∧
    get_units ctx_empty (Expr.atom ⟨none, some "ARRAY_SIZE", none, none, none⟩) =
      some UnitKind.array_size ∧
    match_binop_check ctx_empty
      (Expr.binop BOp.add (Expr.atom ⟨none, some "sizeof", none, none, none⟩)
        (Expr.atom ⟨none, some "ARRAY_SIZE", none, none, none⟩) ainfo_none) =
      [Diag.missing_conversion] := by
  refine ⟨?_, ?_, ?_⟩ <;>
    simp [match_binop_check, check_add_sub, get_units, ident_units, Expr.ainfo, ainfo_none]

/-- Claim C2 as amended: for a '+' or '-' whose left operand's static type
is neither pointer nor array datatype and whose operands both have known
units, the "missing conversion" warning is emitted exactly once if and only
if the two units differ — with no exemption for array_size. -/
theorem add_sub_missing_conversion_iff (ctx : UnitsCtx) (op : BOp) (l r : Expr) (a : AInfo)
    (hop : op = BOp.add ∨ op = BOp.sub)
    (hptr : l.ainfo.styp ≠ some EType.ptr) (harr : l.ainfo.styp ≠ some EType.array)
    (lu ru : UnitKind) (hl : get_units ctx l = some lu) (hr : get_units ctx r = some ru) :
    match_binop_check ctx (Expr.binop op l r a) =
      if lu = ru then [] else [Diag.missing_conversion] := by
  have hce : check_add_sub ctx (Expr.binop op l r a) =
      if lu = ru then [] else [Diag.missing_conversion] := by
    cases hst : l.ainfo.styp with
    | none => simp [check_add_sub, hst, hl, hr]
    | some t => cases t <;> simp_all [check_add_sub]
  rcases hop with h | h <;> subst h <;> simp [match_binop_check, hce]

/-- Closed instance of `add_sub_missing_conversion_iff`: byte + jiffy emits
the missing-conversion warning exactly once. -/
theorem add_sub_missing_conversion_iff_witness :
    match_binop_check ctx_empty
      (Expr.binop BOp.add (Expr.atom ⟨none, some "sizeof", none, none, none⟩)
        (Expr.atom ⟨none, some "jiffies", none, none, none⟩) ainfo_none) =
      [Diag.missing_conversion] := by
  have h := add_sub_missing_conversion_iff ctx_empty BOp.add
    (Expr.atom ⟨none, some "sizeof", none, none, none⟩)
    (Expr.atom ⟨none, some "jiffies", none, none, none⟩) ainfo_none (Or.inl rfl)
    (by decide) (by decide) UnitKind.byte UnitKind.jiffy
    (by simp [get_units, ident_units, Expr.ainfo])
    (by simp [get_units, ident_units, Expr.ainfo])
  rw [h]
  decide

/-- Claim C10: for a '+' or '-' whose left operand's static type is a
pointer or array, the units checker does nothing: the check hook emits no
warning and the set hook records no unit on either operand, whatever units
the operands carry. -/
theorem pointer_add_sub_no_effect (ctx : UnitsCtx) (op : BOp) (l r : Expr) (a : AInfo)
    (hop : op = BOp.add ∨ op = BOp.sub)
    (hty : l.ainfo.styp = some EType.ptr ∨ l.ainfo.styp = some EType.array) :
    match_binop_check ctx (Expr.binop op l r a) = [] ∧
    match_binop_set ctx (Expr.binop op l r a) = [] := by
  rcases hop with h | h <;> rcases hty with h2 | h2 <;> subst h <;>
    simp [match_binop_check, match_binop_set, check_add_sub, h2]

/-- Closed instance of `pointer_add_sub_no_effect`: a pointer-typed left
operand with byte units added to a jiffy-unit operand triggers neither a
warning nor any unit propagation. -/
theorem pointer_add_sub_no_effect_witness :
    match_binop_check ctx_empty
      (Expr.binop BOp.add (Expr.atom ⟨none, some "sizeof", none, some EType.ptr, none⟩)
        (Expr.atom ⟨none, some "jiffies", none, none, none⟩) ainfo_none) = [] ∧
    match_binop_set ctx_empty
      (Expr.binop BOp.add (Expr.atom ⟨none, some "sizeof", none, some EType.ptr, none⟩)
        (Expr.atom ⟨none, some "jiffies", none, none, none⟩) ainfo_none) = [] :=
  pointer_add_sub_no_effect ctx_empty BOp.add
    (Expr.atom ⟨none, some "sizeof", none, some EType.ptr, none⟩)
    (Expr.atom ⟨none, some "jiffies", none, none, none⟩) ainfo_none
    (Or.inl rfl) (Or.inl (by decide))

/-- Feeding two distinct values through `db_units` in sequence leaves the
accumulator at "unknown", whatever it held before. -/
lemma db_units_after_two (acc : Option String) (v1 v2 : String) (h : v1 ≠ v2) :
    db_units (db_units acc v1) v2 = some "unknown" := by
  cases acc with
  | none => simp [db_units, h]
  | some u =>
    by_cases hu : u = v1
    · subst hu
      simp [db_units, h]
    · simp [db_units, hu]

/-- Once the accumulator holds "unknown", no further row changes it. -/
lemma foldl_db_units_unknown (vs : List String) :
    vs.foldl db_units (some "unknown") = some "unknown" := by
  induction vs with
  | nil => rfl
  | cons v vs ih =>
    have hstep : db_units (some "unknown") v = some "unknown" := by
      simp [db_units]
    simp only [List.foldl_cons, hstep, ih]

/-- Row values for a key distribute over store concatenation. -/
lemma row_values_append (r1 r2 : List (String × String)) (m : String) :
    row_values (r1 ++ r2) m = row_values r1 m ++ row_values r2 m := by
  simp [row_values, List.filter_append]

/-- A freshly inserted row for the key contributes exactly its value. -/
lemma row_values_single_hit (m v : String) : row_values [(m, v)] m = [v] := by
  simp [row_values]

/-- Claim C3: once two distinct unit values have been inserted for the same
member key, the fact-store lookup returns the "unknown" sentinel and
`get_units` yields no unit for an expression resolving to that member; the
widening never reverts — arbitrarily many later inserts (`post`), ending
with one identical to the first value, still yield "unknown". -/
theorem member_units_widening_permanent (rows0 post : List (String × String))
    (m v1 v2 : String) (hv : v1 ≠ v2)
    (env : Expr → Option (SState UnitKind)) (a : AInfo)
    (hid : ident_units a.ident = none) (hm : a.member = some m)
    (hvm : m ≠ "(struct vm_area_struct)->vm_pgoff")
    (henv : env (Expr.atom a) = none) :
    lookup_units
      (insert_type_info (insert_type_info (insert_type_info rows0 m v1) m v2 ++ post) m v1)
      m = some "unknown" ∧
    get_units
      ⟨env, insert_type_info (insert_type_info (insert_type_info rows0 m v1) m v2 ++ post) m v1⟩
      (Expr.atom a) = none := by
  have hlook : lookup_units
      (insert_type_info (insert_type_info (insert_type_info rows0 m v1) m v2 ++ post) m v1)
      m = some "unknown" := by
    unfold lookup_units insert_type_info
    rw [row_values_append, row_values_append, row_values_append, row_values_append,
      row_values_single_hit, row_values_single_hit,
      List.foldl_append, List.foldl_append, List.foldl_append, List.foldl_append]
    simp only [List.foldl_cons, List.foldl_nil]
    rw [db_units_after_two _ _ _ hv, foldl_db_units_unknown]
    simp [db_units]
  refine ⟨hlook, ?_⟩
  simp [get_units, hid, henv, get_units_from_type, Expr.ainfo, hm, hvm, hlook, str_to_units]

/-- Closed instance of `member_units_widening_permanent`: byte then page
then byte again for the same member key leaves `get_units` with no unit. -/
theorem member_units_widening_permanent_witness :
    get_units
      ⟨fun _ => none,
        insert_type_info
          (insert_type_info (insert_type_info [] "(struct foo)->len" "byte")
              "(struct foo)->len" "page" ++ [])
          "(struct foo)->len" "byte"⟩
      (Expr.atom ⟨none, none, none, none, some "(struct foo)->len"⟩) = none :=
  (member_units_widening_permanent [] [] "(struct foo)->len" "byte" "page" (by decide)
    (fun _ => none) ⟨none, none, none, none, some "(struct foo)->len"⟩ rfl rfl
    (by decide) rfl).2

/-- Every fact emitted by the parameter loop carries an index at least the
starting counter. -/
lemma process_states_go_le (params : List (Option (SState UnitKind) × Option (SState UnitKind))) :
    ∀ (k i : Nat) (nm : String), (i, nm) ∈ process_states_go k params → k ≤ i := by
  induction params with
  | nil =>
    intro k i nm h
    simp [process_states_go] at h
  | cons hd tl ih =>
    intro k i nm h
    obtain ⟨st, ss⟩ := hd
    cases st with
    | none =>
      have := ih (k + 1) i nm (by simpa [process_states_go] using h)
      omega
    | some s =>
      by_cases h1 : s = SState.merged ∨ s = SState.undefined
      · have := ih (k + 1) i nm (by simpa [process_states_go, h1] using h)
        omega
      · by_cases h2 : some s = ss
        · have := ih (k + 1) i nm (by simpa [process_states_go, h1, h2] using h)
          omega
        · have hcons : process_states_go k ((some s, ss) :: tl) =
              (k, sname s) :: process_states_go (k + 1) tl := by
            simp [process_states_go, h1, h2]
          rw [hcons] at h
          rcases List.mem_cons.mp h with hh | hh
          · injection hh with h3 h4
            omega
          · have := ih (k + 1) i nm hh
            omega

/-- The parameter loop emits a fact for index k + j exactly when the j-th
entry's exit state is a concrete unit differing from its entry state. -/
lemma process_states_go_mem
    (params : List (Option (SState UnitKind) × Option (SState UnitKind))) :
    ∀ (k j : Nat) (ex st : Option (SState UnitKind)), params.get? j = some (ex, st) →
      ((∃ nm, (k + j, nm) ∈ process_states_go k params) ↔
        ∃ u, ex = some (SState.concrete u) ∧ st ≠ some (SState.concrete u)) := by
  induction params with
  | nil =>
    intro k j ex st h
    simp at h
  | cons hd tl ih =>
    intro k j ex st h
    obtain ⟨e0, s0⟩ := hd
    cases j with
    | zero =>
      simp only [List.get?_cons_zero, Option.some.injEq, Prod.mk.injEq] at h
      obtain ⟨h1, h2⟩ := h
      subst h1
      subst h2
      simp only [Nat.add_zero]
      cases e0 with
      | none =>
        constructor
        · rintro ⟨nm, hmem⟩
          have := process_states_go_le tl (k + 1) k nm (by simpa [process_states_go] using hmem)
          omega
        · rintro ⟨u, hu, -⟩
          exact absurd hu (by simp)
      | some s =>
        by_cases h1 : s = SState.merged ∨ s = SState.undefined
        · constructor
          · rintro ⟨nm, hmem⟩
            have := process_states_go_le tl (k + 1) k nm
              (by simpa [process_states_go, h1] using hmem)
            omega
          · rintro ⟨u, hu, -⟩
            rcases h1 with h1 | h1 <;> subst h1 <;> simp at hu
        · by_cases h2 : some s = s0
          · constructor
            · rintro ⟨nm, hmem⟩
              have := process_states_go_le tl (k + 1) k nm
                (by simpa [process_states_go, h1, h2] using hmem)
              omega
            · rintro ⟨u, hu, hne⟩
              injection hu with hu
              subst hu
              exact absurd h2.symm hne
          · constructor
            · intro _
              rcases s with - | - | u
              · exact absurd (Or.inr rfl) h1
              · exact absurd (Or.inl rfl) h1
              · exact ⟨u, rfl, fun hc => h2 (hc ▸ rfl)⟩
            · intro _
              refine ⟨sname s, ?_⟩
              have hcons : process_states_go k ((some s, s0) :: tl) =
                  (k, sname s) :: process_states_go (k + 1) tl := by
                simp [process_states_go, h1, h2]
              rw [hcons]
              exact List.mem_cons_self _ _
    | succ j' =>
      have h' : tl.get? j' = some (ex, st) := by simpa using h
      have key : ∀ nm, ((k + (j' + 1), nm) ∈ process_states_go k ((e0, s0) :: tl)) ↔
          ((k + 1) + j', nm) ∈ process_states_go (k + 1) tl := by
        intro nm
        have harith : k + (j' + 1) = (k + 1) + j' := by omega
        cases e0 with
        | none =>
          simp [process_states_go, harith]
        | some s =>
          by_cases h1 : s = SState.merged ∨ s = SState.undefined
          · simp [process_states_go, h1, harith]
          · by_cases h2 : some s = s0
            · simp [process_states_go, h1, h2, harith]
            · have hcons : process_states_go k ((some s, s0) :: tl) =
                  (k, sname s) :: process_states_go (k + 1) tl := by
                simp [process_states_go, h1, h2]
              rw [hcons]
              constructor
              · intro hmem
                rcases List.mem_cons.mp hmem with hh | hh
                · injection hh with h3 h4
                  omega
                · exact harith ▸ hh
              · intro hmem
                exact List.mem_cons.mpr (Or.inr (harith ▸ hmem))
      constructor
      · rintro ⟨nm, hmem⟩
        exact (ih (k + 1) j' ex st h').mp ⟨nm, (key nm).mp hmem⟩
      · intro hr
        obtain ⟨nm, hmem⟩ := (ih (k + 1) j' ex st h').mpr hr
        exact ⟨nm, (key nm).mpr hmem⟩

/-- Claim C8: at function exit a return_implies units fact is persisted for
formal parameter j exactly when that parameter's exit state is a concrete
unit state that differs from its entry state; a parameter whose state is
unchanged, absent, `&undefined` or `&merged` produces no fact. -/
theorem return_implies_iff_param_changed
    (params : List (Option (SState UnitKind) × Option (SState UnitKind)))
    (j : Nat) (ex st : Option (SState UnitKind)) (h : params.get? j = some (ex, st)) :
    (∃ nm, (j, nm) ∈ process_states params) ↔
      ∃ u, ex = some (SState.concrete u) ∧ st ≠ some (SState.concrete u) := by
  have := process_states_go_mem params 0 j ex st h
  simpa [process_states] using this

/-- Closed instance of `return_implies_iff_param_changed`: a parameter that
ends at byte after starting with no state gets a persisted fact. -/
theorem return_implies_iff_param_changed_witness :
    ∃ nm, (0, nm) ∈ process_states [(some (SState.concrete UnitKind.byte), none)] :=
  (return_implies_iff_param_changed [(some (SState.concrete UnitKind.byte), none)]
    0 (some (SState.concrete UnitKind.byte)) none rfl).mpr
    ⟨UnitKind.byte, rfl, by simp⟩

/-- Claim C9: consuming a stored-to-mtag return fact (tag, offset) for
actual argument index p: when the argument is a bare formal parameter of
the caller (an `EXPR_SYMBOL` with a non-negative parameter number), a local
tag-assign state is recorded and nothing is persisted — no alias; otherwise,
provided `create_mtag_alias` succeeds, no local state is recorded, the mtag
data is persisted once against the fresh alias at the fact's offset, and an
mtag_map row (callerTag, -offset, alias) is persisted exactly when the
caller can resolve its own tag for the argument, with the offset negated. -/
theorem mtag_fact_consumption (create_alias : Option Int) (args : List TExpr)
    (p : Nat) (tag offset : Int) (arg : TExpr) (harg : args[p]? = some arg) :
    (arg.is_symbol = true → 0 ≤ arg.param_num →
      call_does_mtag_assign create_alias args p tag offset =
        (some (arg, "$->[" ++ toString offset ++ "]", ⟨tag, offset, arg.param_num⟩),
         ⟨[], []⟩)) ∧
    (∀ alias_tag, (arg.is_symbol = false ∨ arg.param_num < 0) →
      create_alias = some alias_tag →
      (call_does_mtag_assign create_alias args p tag offset).1 = none ∧
      (call_does_mtag_assign create_alias args p tag offset).2.mtag_data =
        [(alias_tag, offset, arg.rl)] ∧
      (∀ t, arg.tag = some t →
        (call_does_mtag_assign create_alias args p tag offset).2.mtag_map =
          [(t, -offset, alias_tag)]) ∧
      (arg.tag = none →
        (call_does_mtag_assign create_alias args p tag offset).2.mtag_map = [])) := by
  constructor
  · intro hsym hge
    simp [call_does_mtag_assign, propogate_assignment, harg, hsym, not_lt.mpr hge]
  · intro alias_tag hbad hca
    have hprop : propogate_assignment args p tag offset = none := by
      rcases hbad with hb | hb <;> simp [propogate_assignment, harg, hb]
    refine ⟨?_, ?_, ?_, ?_⟩
    · simp [call_does_mtag_assign, hprop]
    · simp [call_does_mtag_assign, hprop, assign_to_alias, harg, hca]
    · intro t ht
      simp [call_does_mtag_assign, hprop, assign_to_alias, harg, hca, ht]
    · intro ht
      simp [call_does_mtag_assign, hprop, assign_to_alias, harg, hca, ht]

/-- Closed instance of `mtag_fact_consumption`: a non-parameter argument
whose own tag resolves to 7, consuming fact (3, +2) with a fresh alias 9,
persists the mtag_map row (7, -2, 9). -/
theorem mtag_fact_consumption_witness :
    (call_does_mtag_assign (some 9) [⟨false, -1, some 7, 5⟩] 0 3 2).2.mtag_map =
      [(7, -2, 9)] :=
  ((mtag_fact_consumption (some 9) [⟨false, -1, some 7, 5⟩] 0 3 2
    ⟨false, -1, some 7, 5⟩ rfl).2 9 (Or.inl rfl) rfl).2.2.1 7 rfl
